import Mathlib

/-!
Verification of the scrape-and-persist pipeline in `scraping.py` / `scrapping.py`.

Strings are modelled as `List Char` (`Str`).  Python's `str.strip()` is
`pyStrip`, Python's `re.sub(r'[\\/*?:"<>|]', "_", s)` is `List.map repl`.
The browser DOM is modelled by explicit data (`Anchor`, `Container`) and the
driver's observable behaviour by `RegionBehavior` / `MainBehavior`; effects
(navigation, file writes, session teardown) are recorded in a trace.
-/

set_option maxRecDepth 4000

/-- Strings of the Python program, modelled as lists of characters. -/
abbrev Str := List Char

/-- The whitespace characters stripped by Python's `str.strip()`
(restricted to the ASCII whitespace class). -/
def isPySpace (c : Char) : Bool :=
  c == ' ' || c == '\t' || c == '\n' || c == '\r' || c == '\x0b' || c == '\x0c'

/-- Left part of Python's `str.strip()`. -/
def lstrip (s : Str) : Str := s.dropWhile isPySpace

/-- Right part of Python's `str.strip()`. -/
def rstrip (s : Str) : Str := (s.reverse.dropWhile isPySpace).reverse

/-- Python's `str.strip()`: remove leading and trailing whitespace. -/
def pyStrip (s : Str) : Str := rstrip (lstrip s)

/-- The characters replaced by the sanitizer's regular expression
`[\\/*?:"<>|]`. -/
def badChar (c : Char) : Bool :=
  c == '\\' || c == '/' || c == '*' || c == '?' || c == ':' ||
  c == '\"' || c == '<' || c == '>' || c == '|'

/-- One step of `re.sub(r'[\\/*?:"<>|]', "_", s)`: replace a forbidden
character with an underscore, keep everything else. -/
def repl (c : Char) : Char := if badChar c then '_' else c

namespace scraping

/-- `BASE_URL` from `scraping.py`. -/
def BASE_URL : Str := "https://www.uschamber.com".data

/-- `MAIN_PAGE` from `scraping.py`. -/
def MAIN_PAGE : Str := BASE_URL ++ "/co/chambers".data

/-- `sanitize_filename` from `scraping.py`: strip whitespace, keep only the
first line when a newline is present, replace forbidden characters by `_`. -/
def sanitize_filename (name : Str) : Str :=
  let n1 := pyStrip name
  let n2 := if '\n' ∈ n1 then n1.takeWhile (fun c => c != '\n') else n1
  n2.map repl

end scraping

/-- The sanitizer algorithm as worded by the spec: trim leading/trailing
whitespace; keep only the text before the first line break; replace each of
the characters `\\ / * ? : " < > |` with `_`. -/
def sanitizeSpecC2 (s : Str) : Str :=
  ((pyStrip s).takeWhile (fun c => c != '\n')).map repl

/- ### Generic list lemmas used by the sanitizer proofs -/

theorem dropWhile_dropWhile_self (p : α → Bool) (l : List α) :
    (l.dropWhile p).dropWhile p = l.dropWhile p := by
  induction l with
  | nil => rfl
  | cons a t ih =>
    by_cases h : p a
    · simpa [List.dropWhile_cons_of_pos h] using ih
    · simp [List.dropWhile_cons_of_neg h, h]

theorem takeWhile_ne_of_not_mem (a : α) [DecidableEq α] (l : List α)
    (h : a ∉ l) : l.takeWhile (fun c => c != a) = l := by
  induction l with
  | nil => rfl
  | cons b t ih =>
    have hba : b ≠ a := fun hba => h (hba ▸ List.mem_cons_self b t)
    have ht : a ∉ t := fun hm => h (List.mem_cons_of_mem b hm)
    simp [List.takeWhile_cons, bne_iff_ne, hba, ih ht]

theorem mem_of_mem_lstrip {c : Char} {s : Str} (h : c ∈ lstrip s) : c ∈ s :=
  (List.dropWhile_sublist (l := s) (p := isPySpace)).mem h

theorem mem_of_mem_rstrip {c : Char} {s : Str} (h : c ∈ rstrip s) : c ∈ s := by
  unfold rstrip at h
  rw [List.mem_reverse] at h
  exact List.mem_reverse.mp ((List.dropWhile_sublist (l := s.reverse) (p := isPySpace)).mem h)

theorem mem_of_mem_pyStrip {c : Char} {s : Str} (h : c ∈ pyStrip s) : c ∈ s :=
  mem_of_mem_lstrip (mem_of_mem_rstrip h)

theorem isPySpace_repl (c : Char) : isPySpace (repl c) = isPySpace c := by
  unfold repl
  by_cases h : badChar c = true
  · have h9 : c = '\\' ∨ c = '/' ∨ c = '*' ∨ c = '?' ∨ c = ':' ∨
        c = '\"' ∨ c = '<' ∨ c = '>' ∨ c = '|' := by
      simp only [badChar, Bool.or_eq_true, beq_iff_eq] at h
      tauto
    simp only [if_pos h]
    rcases h9 with h|h|h|h|h|h|h|h|h <;> subst h <;> decide
  · simp [h]

theorem repl_repl (c : Char) : repl (repl c) = repl c := by
  unfold repl
  by_cases h : badChar c = true <;> simp [h]

theorem repl_ne_newline {c : Char} (h : c ≠ '\n') : repl c ≠ '\n' := by
  unfold repl
  by_cases hb : badChar c = true
  · simp only [if_pos hb]
    decide
  · simpa [hb] using h

theorem lstrip_map_repl (s : Str) : lstrip (s.map repl) = (lstrip s).map repl := by
  unfold lstrip
  rw [List.dropWhile_map]
  have : (fun a => isPySpace (repl a)) = isPySpace := by
    funext a; exact isPySpace_repl a
  simp only [Function.comp_def, this]

theorem rstrip_map_repl (s : Str) : rstrip (s.map repl) = (rstrip s).map repl := by
  unfold rstrip
  rw [← List.map_reverse, List.dropWhile_map]
  have : (fun a => isPySpace (repl a)) = isPySpace := by
    funext a; exact isPySpace_repl a
  simp only [Function.comp_def, this, List.map_reverse]

theorem pyStrip_map_repl (s : Str) : pyStrip (s.map repl) = (pyStrip s).map repl := by
  unfold pyStrip
  rw [lstrip_map_repl, rstrip_map_repl]

theorem lstrip_head_not_space {a : Char} {t : Str} {s : Str}
    (h : lstrip s = a :: t) : isPySpace a = false := by
  have := List.head?_dropWhile_not isPySpace s
  unfold lstrip at h
  rw [h] at this
  simpa using this

theorem lstrip_fixed_of_head {a : Char} {t : Str} (h : isPySpace a = false) :
    lstrip (a :: t) = a :: t := by
  unfold lstrip
  simp [List.dropWhile_cons, h]

theorem rstrip_append (s : Str) : ∃ u, s = rstrip s ++ u := by
  refine ⟨(s.reverse.takeWhile isPySpace).reverse, ?_⟩
  unfold rstrip
  rw [← List.reverse_append, List.takeWhile_append_dropWhile, List.reverse_reverse]

theorem lstrip_lstrip (s : Str) : lstrip (lstrip s) = lstrip s :=
  dropWhile_dropWhile_self isPySpace s

theorem rstrip_rstrip (s : Str) : rstrip (rstrip s) = rstrip s := by
  unfold rstrip
  rw [List.reverse_reverse, dropWhile_dropWhile_self]

theorem lstrip_rstrip_of_fixed {s : Str} (h : lstrip s = s) :
    lstrip (rstrip s) = rstrip s := by
  cases hr : rstrip s with
  | nil => rfl
  | cons a t =>
    obtain ⟨u, hu⟩ := rstrip_append s
    rw [hr] at hu
    have hhead : isPySpace a = false := by
      apply lstrip_head_not_space (t := t ++ u)
      rw [← List.cons_append, ← hu, h, hu]
    exact lstrip_fixed_of_head hhead

theorem pyStrip_pyStrip (s : Str) : pyStrip (pyStrip s) = pyStrip s := by
  unfold pyStrip
  rw [lstrip_rstrip_of_fixed (lstrip_lstrip s), rstrip_rstrip]

theorem map_repl_repl (s : Str) : (s.map repl).map repl = s.map repl := by
  rw [List.map_map]
  exact List.map_congr_left (fun a _ => repl_repl a)

/- ### Data model shared by both source files -/

/-- A rendered `<a>` element: its `href` attribute (`none` when
`get_attribute` yields no value) and its visible text. -/
structure Anchor where
  href : Option Str
  text : Str
deriving DecidableEq

/-- One listing container (class `chamber-finder__content`):
the text of its first `<h3>` sub-element (`none` when the lookup raises),
the text of its `.chamber-finder__address` sub-element (`none` when the
lookup raises), and its anchor sub-elements (`none` when enumerating the
anchors raises). -/
structure Container where
  heading : Option Str
  addressElem : Option Str
  anchors : Option (List Anchor)
deriving DecidableEq

/-- One extracted chamber record, with exactly the three fields the
program builds: `name`, `address`, `website`. -/
structure Listing where
  name : Str
  address : Str
  website : Option Str
deriving DecidableEq

/-- JSON values, modelling the content handed to `json.dump`. -/
inductive Json where
  | null : Json
  | str : Str → Json
  | arr : List Json → Json
  | obj : List (Str × Json) → Json

/-- Observable side effects of a run: a page navigation (`driver.get`),
a file write (`json.dump` to an opened file), and the browser teardown
(`driver.quit`). -/
inductive Effect where
  | nav : Str → Effect
  | save : Str → Json → Effect
  | quit : Effect

/-- Behaviour of the browser on one region page: whether `driver.get`
raises, whether the 10-second wait for `.chamber-finder__content` succeeds,
the containers found by `find_elements`, and `none`/`some k` to model
enumeration completing or raising after `k` containers were processed. -/
structure RegionBehavior where
  navFails : Bool
  waitSucceeds : Bool
  containers : List Container
  enumFailsAfter : Option Nat

/-- Behaviour of one whole run: the anchors found in the
`chamber-finder-js` container of the index page, the behaviour of each
region page (keyed by URL), and whether writing a region's file raises
(keyed by region name). -/
structure MainBehavior where
  anchors : List Anchor
  regionBeh : Str → RegionBehavior
  saveFails : Str → Bool

/-- `json.dump`'s encoding of one chamber dictionary. -/
def listingToJson (l : Listing) : Json :=
  Json.obj [("name".data, Json.str l.name), ("address".data, Json.str l.address),
    ("website".data, match l.website with | none => Json.null | some w => Json.str w)]

/-- Decode the `website` field of a stored chamber object. -/
def decodeWebsite : Json → Option (Option Str)
  | Json.null => some none
  | Json.str w => some (some w)
  | _ => none

/-- Decode one stored chamber object back into a `Listing`. -/
def decodeListing : Json → Option Listing
  | Json.obj [(k1, Json.str n), (k2, Json.str a), (k3, w)] =>
    if k1 = "name".data ∧ k2 = "address".data ∧ k3 = "website".data then
      (decodeWebsite w).map (fun ws => ⟨n, a, ws⟩)
    else none
  | _ => none

/-- Decode a list of stored chamber objects, failing if any element
fails. -/
def decodeListings : List Json → Option (List Listing)
  | [] => some []
  | x :: xs =>
    match decodeListing x, decodeListings xs with
    | some l, some ls => some (l :: ls)
    | _, _ => none

/-- Parse a stored region file back into its display name and listings. -/
def decodeTop : Json → Option (Str × List Listing)
  | Json.obj [(k, Json.arr xs)] => (decodeListings xs).map (fun ls => (k, ls))
  | _ => none

/-- Membership of a key in a Python dict modelled as an ordered
association list. -/
def containsKey : List (Str × Str) → Str → Bool
  | [], _ => false
  | p :: d, k => if p.1 = k then true else containsKey d k

/-- Python dict assignment `d[k] = v`: overwrite in place when the key
exists, append otherwise (insertion order preserved). -/
def dictInsert (d : List (Str × Str)) (k v : Str) : List (Str × Str) :=
  if containsKey d k then d.map (fun p => if p.1 = k then (k, v) else p)
  else d ++ [(k, v)]

/-- Python dict lookup `d[k]` (first — and only — matching key). -/
def lookupD : List (Str × Str) → Str → Option Str
  | [], _ => none
  | p :: d, k => if p.1 = k then some p.2 else lookupD d k

/-- Python's substring operator `pat in s`: `pat` occurs contiguously in
`s` (the empty pattern occurs in every string). -/
def containsSub (pat : Str) : Str → Bool
  | [] => pat.isEmpty
  | c :: rest => pat.isPrefixOf (c :: rest) || containsSub pat rest

/-- Whether `hasQuit` effects contain the browser teardown. -/
def hasQuit : List Effect → Bool
  | [] => false
  | Effect.quit :: _ => true
  | _ :: es => hasQuit es

namespace scraping

/-- The filter applied by `get_state_links` to an anchor: truthy `href`,
truthy stripped text, href containing "/co/chambers/", href different from
the index page. -/
def qualifies (a : Anchor) : Bool :=
  match a.href with
  | none => false
  | some h =>
    !h.isEmpty && !(pyStrip a.text).isEmpty &&
      containsSub "/co/chambers/".data h && !(h == MAIN_PAGE)

/-- `get_state_links` from `scraping.py`, given the anchors found inside
the `chamber-finder-js` container: fold the anchors in enumeration order
into a Python dict keyed by stripped anchor text. -/
def get_state_links (anchors : List Anchor) : List (Str × Str) :=
  anchors.foldl
    (fun d a => if qualifies a then dictInsert d (pyStrip a.text) (a.href.getD []) else d)
    []

/-- The sentinel string the code stores when a name or address lookup
fails. -/
def NA : Str := "N/A".data

/-- The test of the website-selection loop in `scrape_state`:
`href and href.startswith("http") and BASE_URL not in href`. -/
def goodHref (h : Str) : Bool :=
  !h.isEmpty && "http".data.isPrefixOf h && !(containsSub BASE_URL h)

/-- The website-selection loop of `scrape_state`: first anchor whose href
passes `goodHref`, scanning in enumeration order, stopping at the first
hit. -/
def findWebsite : List Anchor → Option Str
  | [] => none
  | a :: rest =>
    match a.href with
    | some h => if goodHref h then some h else findWebsite rest
    | none => findWebsite rest

/-- The per-container body of `scrape_state`'s loop: name from the first
`<h3>` (sentinel on failure), address from `.chamber-finder__address`
(sentinel on failure), website from the anchor scan (`none` when the scan
raises or nothing passes). -/
def extract_listing (c : Container) : Listing :=
  { name := match c.heading with | some t => pyStrip t | none => NA
    address := match c.addressElem with | some t => pyStrip t | none => NA
    website := match c.anchors with | some as => findWebsite as | none => none }

/-- `scrape_state` from `scraping.py`: navigate to the region URL, wait for
a listing container (timeout gives `[]`), then build one listing per
container, keeping the partial list when enumeration raises midway.
Returns the effect trace paired with the outcome; `Except.error` models the
uncaught exception when `driver.get` raises. -/
def scrape_state (b : RegionBehavior) (state_url : Str) :
    List Effect × Except Unit (List Listing) :=
  ([Effect.nav state_url],
    if b.navFails then Except.error ()
    else if b.waitSucceeds then
      Except.ok ((match b.enumFailsAfter with
        | none => b.containers
        | some k => b.containers.take k).map extract_listing)
    else Except.ok [])

/-- `save_state_data` from `scraping.py`: the written file's name
(`<sanitized name>.json`) and its JSON content
(`{state_name: chambers}`). -/
def save_state_data (state_name : Str) (chambers : List Listing) : Str × Json :=
  (sanitize_filename state_name ++ ".json".data,
    Json.obj [(state_name, Json.arr (chambers.map listingToJson))])

/-- The per-region loop of `main`: scrape then save, sequentially; an
uncaught exception in `driver.get` or in the file write aborts the loop
(second component `false`). -/
def processRegions (b : MainBehavior) : List (Str × Str) → List Effect × Bool
  | [] => ([], true)
  | (state_name, state_url) :: rest =>
    let r := scrape_state (b.regionBeh state_url) state_url
    match r.2 with
    | Except.error _ => (r.1, false)
    | Except.ok chambers =>
      if b.saveFails state_name then (r.1, false)
      else
        let sv := save_state_data state_name chambers
        let rr := processRegions b rest
        (r.1 ++ Effect.save sv.1 sv.2 :: rr.1, rr.2)

/-- `main` from `scraping.py`: load the index page, discover region links,
exit early (with teardown) when none are found, otherwise process every
region and tear the session down at the end.  There is no try/finally, so
the teardown is reached only when no exception escaped the loop. -/
def main (b : MainBehavior) : List Effect × Bool :=
  let links := get_state_links b.anchors
  if links.isEmpty then ([Effect.nav MAIN_PAGE, Effect.quit], true)
  else
    let r := processRegions b links
    (Effect.nav MAIN_PAGE :: r.1 ++ (if r.2 then [Effect.quit] else []), r.2)

end scraping

/-- The claim's description of Link Discovery's duplicate handling: the
href of the last qualifying anchor (in enumeration order) whose stripped
text equals `name`. -/
def lastQualHref (anchors : List Anchor) (name : Str) : Option Str :=
  ((anchors.filter (fun a => scraping.qualifies a && pyStrip a.text == name)).getLast?).bind
    Anchor.href

/-- The amended C5 selection rule, worded declaratively: the first href
(in anchor enumeration order) that starts with "http" and does not contain
the base URL as a substring; `none` when the anchor scan raised. -/
def websiteSpecC5 (c : Container) : Option Str :=
  match c.anchors with
  | none => none
  | some as => (as.filterMap Anchor.href).find? scraping.goodHref

/-- C5 as frozen reads "does not belong to the site's own base domain":
a URL belongs to the base domain when it starts with the base URL. -/
def externalByDomain (h : Str) : Bool :=
  "http".data.isPrefixOf h && !(scraping.BASE_URL.isPrefixOf h)

/-- Website selection as the frozen C5 words it: first anchor href that
starts with an HTTP scheme and does not belong to the base domain. -/
def websiteByDomainSpec (anchors : List Anchor) : Option Str :=
  (anchors.filterMap Anchor.href).find? externalByDomain

namespace scrapping

/-- `BASE_URL` from `scrapping.py`. -/
def BASE_URL : Str := "https://www.uschamber.com".data

/-- `MAIN_PAGE` from `scrapping.py`. -/
def MAIN_PAGE : Str := BASE_URL ++ "/co/chambers".data

/-- `sanitize_filename` from `scrapping.py`. -/
def sanitize_filename (name : Str) : Str :=
  let n1 := pyStrip name
  let n2 := if '\n' ∈ n1 then n1.takeWhile (fun c => c != '\n') else n1
  n2.map repl

/-- The anchor filter of `get_state_links` in `scrapping.py`. -/
def qualifies (a : Anchor) : Bool :=
  match a.href with
  | none => false
  | some h =>
    !h.isEmpty && !(pyStrip a.text).isEmpty &&
      containsSub "/co/chambers/".data h && !(h == MAIN_PAGE)

/-- `get_state_links` from `scrapping.py`. -/
def get_state_links (anchors : List Anchor) : List (Str × Str) :=
  anchors.foldl
    (fun d a => if qualifies a then dictInsert d (pyStrip a.text) (a.href.getD []) else d)
    []

/-- The failure sentinel of `scrapping.py`. -/
def NA : Str := "N/A".data

/-- The website test of `scrape_state` in `scrapping.py`. -/
def goodHref (h : Str) : Bool :=
  !h.isEmpty && "http".data.isPrefixOf h && !(containsSub BASE_URL h)

/-- The website-selection loop of `scrape_state` in `scrapping.py`. -/
def findWebsite : List Anchor → Option Str
  | [] => none
  | a :: rest =>
    match a.href with
    | some h => if goodHref h then some h else findWebsite rest
    | none => findWebsite rest

/-- The per-container body of `scrape_state`'s loop in `scrapping.py`. -/
def extract_listing (c : Container) : Listing :=
  { name := match c.heading with | some t => pyStrip t | none => NA
    address := match c.addressElem with | some t => pyStrip t | none => NA
    website := match c.anchors with | some as => findWebsite as | none => none }

/-- `scrape_state` from `scrapping.py`. -/
def scrape_state (b : RegionBehavior) (state_url : Str) :
    List Effect × Except Unit (List Listing) :=
  ([Effect.nav state_url],
    if b.navFails then Except.error ()
    else if b.waitSucceeds then
      Except.ok ((match b.enumFailsAfter with
        | none => b.containers
        | some k => b.containers.take k).map extract_listing)
    else Except.ok [])

/-- `save_state_data` from `scrapping.py`. -/
def save_state_data (state_name : Str) (chambers : List Listing) : Str × Json :=
  (sanitize_filename state_name ++ ".json".data,
    Json.obj [(state_name, Json.arr (chambers.map listingToJson))])

/-- The per-region loop of `main` in `scrapping.py`. -/
def processRegions (b : MainBehavior) : List (Str × Str) → List Effect × Bool
  | [] => ([], true)
  | (state_name, state_url) :: rest =>
    let r := scrape_state (b.regionBeh state_url) state_url
    match r.2 with
    | Except.error _ => (r.1, false)
    | Except.ok chambers =>
      if b.saveFails state_name then (r.1, false)
      else
        let sv := save_state_data state_name chambers
        let rr := processRegions b rest
        (r.1 ++ Effect.save sv.1 sv.2 :: rr.1, rr.2)

/-- `main` from `scrapping.py`. -/
def main (b : MainBehavior) : List Effect × Bool :=
  let links := get_state_links b.anchors
  if links.isEmpty then ([Effect.nav MAIN_PAGE, Effect.quit], true)
  else
    let r := processRegions b links
    (Effect.nav MAIN_PAGE :: r.1 ++ (if r.2 then [Effect.quit] else []), r.2)

end scrapping

/- ### Claim C1 -/

/-- The region behaviour used to exhibit the C1 counterexample: one
container whose heading and address lookups both fail. -/
def c1Beh : RegionBehavior := ⟨false, true, [⟨none, none, some []⟩], none⟩

/-- The container of `c1Beh`. -/
def c1Cont : Container := ⟨none, none, some []⟩

/-- Claim C1 counterexample: on a container whose heading lookup fails,
`scrape_state` records the sentinel "N/A", not "unknown" as the claim
states (and the same sentinel is used for the address). -/
theorem c1_counterexample :
    (scraping.scrape_state c1Beh []).2 =
      Except.ok [{ name := "N/A".data, address := "N/A".data, website := none }] ∧
    ("N/A".data : Str) ≠ "unknown".data :=
  ⟨rfl, by decide⟩

/-- Claim C1 (amended): in `scrape_state`, when the heading lookup of a
container fails its listing's name is the sentinel "N/A", when the address
lookup fails its address is the sentinel "N/A", and the listing is still
recorded in the returned sequence (one listing per container). -/
theorem c1_sentinel_NA (b : RegionBehavior) (url : Str) (c1 c2 : Container)
    (h1 : b.navFails = false) (h2 : b.waitSucceeds = true)
    (h3 : b.enumFailsAfter = none)
    (hc1 : c1 ∈ b.containers) (hh : c1.heading = none)
    (hc2 : c2 ∈ b.containers) (ha : c2.addressElem = none) :
    (scraping.scrape_state b url).2 =
      Except.ok (b.containers.map scraping.extract_listing) ∧
    (scraping.extract_listing c1).name = scraping.NA ∧
    (scraping.extract_listing c2).address = scraping.NA ∧
    scraping.extract_listing c1 ∈ b.containers.map scraping.extract_listing ∧
    scraping.extract_listing c2 ∈ b.containers.map scraping.extract_listing := by
  refine ⟨?_, ?_, ?_, List.mem_map_of_mem _ hc1, List.mem_map_of_mem _ hc2⟩
  · simp [scraping.scrape_state, h1, h2, h3]
  · simp [scraping.extract_listing, hh]
  · simp [scraping.extract_listing, ha]

/-- Witness for the amended C1 at a concrete behaviour. -/
theorem c1_sentinel_NA_witness :
    (c1Beh.navFails = false ∧ c1Beh.waitSucceeds = true ∧
      c1Beh.enumFailsAfter = none ∧ c1Cont ∈ c1Beh.containers ∧
      c1Cont.heading = none ∧ c1Cont.addressElem = none) ∧
    ((scraping.scrape_state c1Beh []).2 =
        Except.ok (c1Beh.containers.map scraping.extract_listing) ∧
      (scraping.extract_listing c1Cont).name = scraping.NA ∧
      (scraping.extract_listing c1Cont).address = scraping.NA ∧
      scraping.extract_listing c1Cont ∈ c1Beh.containers.map scraping.extract_listing ∧
      scraping.extract_listing c1Cont ∈ c1Beh.containers.map scraping.extract_listing) :=
  ⟨⟨rfl, rfl, rfl, by decide, rfl, rfl⟩,
    c1_sentinel_NA c1Beh [] c1Cont c1Cont rfl rfl rfl (by decide) rfl (by decide) rfl⟩

/- ### Claim C2 -/

/-- Claim C2: `sanitize_filename` computes exactly the spec's algorithm —
trim leading/trailing whitespace, keep only the text before the first line
break, replace each of the characters backslash / * ? : quote < > | by an
underscore.  Being a total function on `Str` it never fails and always
returns a (possibly empty) string. -/
theorem c2_sanitize_matches_spec (s : Str) :
    scraping.sanitize_filename s = sanitizeSpecC2 s := by
  unfold scraping.sanitize_filename sanitizeSpecC2
  by_cases h : '\n' ∈ pyStrip s
  · simp [h]
  · simp [h, takeWhile_ne_of_not_mem '\n' (pyStrip s) h]

/- ### Claim C3 -/

/-- Claim C3 counterexample: the sanitizer is not idempotent.  On
"a \nb" the first pass keeps the first line "a " with its trailing space,
and the second pass strips that space. -/
theorem c3_counterexample :
    scraping.sanitize_filename (scraping.sanitize_filename ['a', ' ', '\n', 'b']) ≠
      scraping.sanitize_filename ['a', ' ', '\n', 'b'] := by
  decide

/-- Claim C3 (amended): the sanitizer is idempotent on every string that
contains no line break (the counterexample needs a line break preceded by
whitespace, which makes the first pass leave trailing whitespace behind). -/
theorem c3_idempotent_no_newline (s : Str) (h : '\n' ∉ s) :
    scraping.sanitize_filename (scraping.sanitize_filename s) =
      scraping.sanitize_filename s := by
  have h1 : '\n' ∉ pyStrip s := fun hm => h (mem_of_mem_pyStrip hm)
  have e1 : scraping.sanitize_filename s = (pyStrip s).map repl := by
    simp [scraping.sanitize_filename, h1]
  rw [e1]
  have h2 : '\n' ∉ (pyStrip s).map repl := by
    intro hm
    rcases List.mem_map.mp hm with ⟨c, hc, hrc⟩
    by_cases hcn : c = '\n'
    · exact h1 (hcn ▸ hc)
    · exact repl_ne_newline hcn hrc
  have h3 : '\n' ∉ pyStrip ((pyStrip s).map repl) := fun hm => h2 (mem_of_mem_pyStrip hm)
  simp only [scraping.sanitize_filename, h3, if_neg, if_false]
  rw [pyStrip_map_repl, pyStrip_pyStrip, map_repl_repl]

/-- Witness for the amended C3 at the newline-free string "a". -/
theorem c3_idempotent_no_newline_witness :
    '\n' ∉ (['a'] : Str) ∧
    scraping.sanitize_filename (scraping.sanitize_filename ['a']) =
      scraping.sanitize_filename ['a'] :=
  ⟨by decide, c3_idempotent_no_newline ['a'] (by decide)⟩

/- ### Claim C9 -/

theorem findWebsite_eq (as : List Anchor) :
    scraping.findWebsite as = scrapping.findWebsite as := by
  induction as with
  | nil => rfl
  | cons a rest ih =>
    cases ha : a.href with
    | none => simp [scraping.findWebsite, scrapping.findWebsite, ha, ih]
    | some h =>
      have hg : scraping.goodHref h = scrapping.goodHref h := rfl
      simp [scraping.findWebsite, scrapping.findWebsite, ha, ih, hg]

theorem extract_listing_eq :
    scraping.extract_listing = scrapping.extract_listing := by
  funext c
  unfold scraping.extract_listing scrapping.extract_listing
  cases c with
  | mk hd ad asr =>
    cases asr with
    | none => rfl
    | some as =>
      simp only [findWebsite_eq as]
      rfl

theorem scrape_state_eq (b : RegionBehavior) (u : Str) :
    scraping.scrape_state b u = scrapping.scrape_state b u := by
  unfold scraping.scrape_state scrapping.scrape_state
  rw [extract_listing_eq]

theorem processRegions_eq (b : MainBehavior) :
    ∀ l, scraping.processRegions b l = scrapping.processRegions b l
  | [] => rfl
  | (n, u) :: rest => by
    unfold scraping.processRegions scrapping.processRegions
    rw [scrape_state_eq (b.regionBeh u) u, processRegions_eq b rest]
    rfl

theorem main_eq (mb : MainBehavior) : scraping.main mb = scrapping.main mb := by
  unfold scraping.main scrapping.main
  rw [show scraping.get_state_links = scrapping.get_state_links from
    funext (fun _ => rfl)]
  simp only [processRegions_eq]
  rfl

/-- Claim C9: `scraping.py` and `scrapping.py` are behaviourally
equivalent — every correspondingly named function produces the same result
(and, for `scrape_state` and `main`, the same effect trace) on every
input. -/
theorem c9_files_equivalent :
    (∀ s, scraping.sanitize_filename s = scrapping.sanitize_filename s) ∧
    (∀ as, scraping.get_state_links as = scrapping.get_state_links as) ∧
    (∀ b url, scraping.scrape_state b url = scrapping.scrape_state b url) ∧
    (∀ n cs, scraping.save_state_data n cs = scrapping.save_state_data n cs) ∧
    (∀ mb, scraping.main mb = scrapping.main mb) :=
  ⟨fun _ => rfl, fun _ => rfl, scrape_state_eq, fun _ _ => rfl, main_eq⟩

/- ### Claim C4 -/

theorem getLast?_concat_self (l : List α) (a : α) :
    (l ++ [a]).getLast? = some a := by
  induction l with
  | nil => rfl
  | cons b t ih =>
    rw [List.cons_append]
    cases ht : t ++ [a] with
    | nil => exact absurd ht (by simp)
    | cons c u =>
      rw [List.getLast?_cons_cons]
      rw [← ht, ih]

theorem lookupD_of_containsKey_false {d : List (Str × Str)} {k : Str}
    (h : containsKey d k = false) : lookupD d k = none := by
  induction d with
  | nil => rfl
  | cons p d ih =>
    by_cases hp : p.1 = k
    · simp [containsKey, hp] at h
    · simp only [containsKey, if_neg hp] at h
      simp [lookupD, hp, ih h]

theorem lookupD_append (d1 d2 : List (Str × Str)) (k : Str) :
    lookupD (d1 ++ d2) k =
      match lookupD d1 k with
      | some v => some v
      | none => lookupD d2 k := by
  induction d1 with
  | nil => rfl
  | cons p d ih =>
    by_cases hp : p.1 = k
    · simp [lookupD, hp]
    · simp [lookupD, hp, ih]

theorem lookupD_map_update (d : List (Str × Str)) (k v : Str) :
    lookupD (d.map (fun p => if p.1 = k then (k, v) else p)) k =
      match lookupD d k with
      | some _ => some v
      | none => none := by
  induction d with
  | nil => rfl
  | cons p d ih =>
    by_cases hp : p.1 = k
    · simp [lookupD, hp]
    · simp [lookupD, hp, ih]

theorem containsKey_lookupD {d : List (Str × Str)} {k : Str}
    (h : containsKey d k = true) : ∃ v, lookupD d k = some v := by
  induction d with
  | nil => exact absurd h (by simp [containsKey])
  | cons p d ih =>
    by_cases hp : p.1 = k
    · exact ⟨p.2, by simp [lookupD, hp]⟩
    · simp only [containsKey, if_neg hp] at h
      rcases ih h with ⟨v, hv⟩
      exact ⟨v, by simp [lookupD, hp, hv]⟩

theorem lookupD_dictInsert_self (d : List (Str × Str)) (k v : Str) :
    lookupD (dictInsert d k v) k = some v := by
  unfold dictInsert
  by_cases hc : containsKey d k = true
  · rcases containsKey_lookupD hc with ⟨w, hw⟩
    simp [hc, lookupD_map_update, hw]
  · simp only [hc, if_false, Bool.false_eq_true]
    rw [lookupD_append, lookupD_of_containsKey_false (Bool.eq_false_iff.mpr hc)]
    simp [lookupD]

theorem lookupD_map_update_other (d : List (Str × Str)) (k v k' : Str)
    (h : k' ≠ k) :
    lookupD (d.map (fun p => if p.1 = k then (k, v) else p)) k' = lookupD d k' := by
  induction d with
  | nil => rfl
  | cons p d ih =>
    by_cases hp : p.1 = k
    · have h1 : ¬(k = k') := fun hk => h hk.symm
      have h2 : ¬(p.1 = k') := by rw [hp]; exact h1
      simp [lookupD, hp, h1, h2, ih]
    · simp [lookupD, hp, ih]

theorem lookupD_dictInsert_other (d : List (Str × Str)) (k v k' : Str)
    (h : k' ≠ k) :
    lookupD (dictInsert d k v) k' = lookupD d k' := by
  unfold dictInsert
  by_cases hc : containsKey d k = true
  · simp only [hc, if_true]
    exact lookupD_map_update_other d k v k' h
  · simp only [hc, if_false, Bool.false_eq_true]
    rw [lookupD_append]
    cases hl : lookupD d k' with
    | some w => rfl
    | none =>
      have h1 : ¬(k = k') := fun hk => h hk.symm
      simp [lookupD, h1]

theorem qualifies_href {a : Anchor} (h : scraping.qualifies a = true) :
    ∃ hr, a.href = some hr := by
  cases ha : a.href with
  | none => rw [scraping.qualifies, ha] at h; exact absurd h (by simp)
  | some hr => exact ⟨hr, rfl⟩

theorem get_state_links_concat (l : List Anchor) (a : Anchor) :
    scraping.get_state_links (l ++ [a]) =
      (if scraping.qualifies a then
        dictInsert (scraping.get_state_links l) (pyStrip a.text) (a.href.getD [])
      else scraping.get_state_links l) := by
  unfold scraping.get_state_links
  rw [List.foldl_append]
  rfl

/-- Claim C4: a name is mapped by `get_state_links` exactly when some
anchor qualifies for it (non-empty href, non-empty stripped text, href
containing "/co/chambers/", href different from the index page), and the
stored URL is the href of the last such anchor in enumeration order —
both phrased at once as: looking a name up in the produced dict returns
the href of the last qualifying anchor bearing that name. -/
theorem c4_get_state_links (anchors : List Anchor) (name : Str) :
    lookupD (scraping.get_state_links anchors) name = lastQualHref anchors name := by
  induction anchors using List.reverseRecOn with
  | nil => rfl
  | append_singleton l a ih =>
    rw [get_state_links_concat]
    unfold lastQualHref
    rw [List.filter_append]
    by_cases hq : scraping.qualifies a = true
    · rw [if_pos hq]
      by_cases hn : pyStrip a.text = name
      · rcases qualifies_href hq with ⟨hr, hhr⟩
        have hfa : List.filter (fun x => scraping.qualifies x && pyStrip x.text == name) [a] = [a] := by
          simp [List.filter, hq, hn]
        rw [hfa, getLast?_concat_self, hn, lookupD_dictInsert_self]
        simp [hhr]
      · have hb : (pyStrip a.text == name) = false := beq_eq_false_iff_ne.mpr hn
        have hfa : List.filter (fun x => scraping.qualifies x && pyStrip x.text == name) [a] = [] := by
          simp [List.filter, hb]
        rw [hfa, List.append_nil]
        rw [lookupD_dictInsert_other _ _ _ _ (fun hk => hn hk.symm)]
        exact ih
    · rw [if_neg hq]
      have hfa : List.filter (fun x => scraping.qualifies x && pyStrip x.text == name) [a] = [] := by
        simp [List.filter, hq]
      rw [hfa, List.append_nil]
      exact ih

/- ### Claim C5 -/

/-- The counterexample URL for C5: starts with "http", does not lie under
the base domain, yet contains the base URL as a substring. -/
def c5Evil : Str := "http://e/?u=https://www.uschamber.com".data

/-- The anchor carrying `c5Evil`. -/
def c5Anchor : Anchor := ⟨some c5Evil, []⟩

/-- A container whose only anchor is `c5Anchor`. -/
def c5Cont : Container := ⟨none, none, some [c5Anchor]⟩

/-- Claim C5 counterexample: the code tests `BASE_URL not in href`
(substring), not domain membership.  For an anchor whose href starts with
"http" and does not belong to the base domain but contains the base URL
as a substring, the claim demands that href as the website while the code
stores null. -/
theorem c5_counterexample :
    (scraping.extract_listing c5Cont).website = none ∧
    websiteByDomainSpec [c5Anchor] = some c5Evil ∧
    (none : Option Str) ≠ some c5Evil :=
  ⟨rfl, rfl, by simp⟩

theorem findWebsite_eq_find (as : List Anchor) :
    scraping.findWebsite as = (as.filterMap Anchor.href).find? scraping.goodHref := by
  induction as with
  | nil => rfl
  | cons a rest ih =>
    cases ha : a.href with
    | none => simp [scraping.findWebsite, ha, List.filterMap_cons, ih]
    | some h =>
      by_cases hg : scraping.goodHref h = true
      · simp [scraping.findWebsite, ha, List.filterMap_cons, List.find?_cons, hg]
      · simp [scraping.findWebsite, ha, List.filterMap_cons, List.find?_cons, hg, ih]

/-- Claim C5 (amended): for each listing container the website field
equals the href of the first anchor sub-element (in enumeration order)
whose href starts with "http" and does not contain the site's base URL as
a substring; it is null when no such anchor exists or when the anchor
enumeration fails. -/
theorem c5_website_first_external (c : Container) :
    (scraping.extract_listing c).website = websiteSpecC5 c := by
  cases hca : c.anchors with
  | none => simp [scraping.extract_listing, websiteSpecC5, hca]
  | some as => simp [scraping.extract_listing, websiteSpecC5, hca, findWebsite_eq_find]

/- ### Claim C6 -/

theorem decodeListing_listingToJson (l : Listing) :
    decodeListing (listingToJson l) = some l := by
  cases l with
  | mk n a w => cases w <;> simp [listingToJson, decodeListing, decodeWebsite]

theorem decodeListings_map (cs : List Listing) :
    decodeListings (cs.map listingToJson) = some cs := by
  induction cs with
  | nil => rfl
  | cons c cs ih => simp [decodeListings, decodeListing_listingToJson, ih]

/-- Claim C6: persistence round-trip — `save_state_data` writes to the
file named after the sanitized display name, and parsing the written JSON
object yields the original (unsanitized) display name as its single key
and an array field-for-field equal to the input listings, null websites
included. -/
theorem c6_roundtrip (state_name : Str) (chambers : List Listing) :
    (scraping.save_state_data state_name chambers).1 =
      scraping.sanitize_filename state_name ++ ".json".data ∧
    decodeTop (scraping.save_state_data state_name chambers).2 =
      some (state_name, chambers) := by
  refine ⟨rfl, ?_⟩
  simp [scraping.save_state_data, decodeTop, decodeListings_map]

/- ### Claim C7 -/

/-- Claim C7: when the wait for a listing container times out (navigation
itself succeeded), `scrape_state` returns the empty sequence with exactly
one navigation in its trace — no further navigation, no retry — and the
orchestrator's loop goes straight on to the remaining regions, saving the
empty result for the timed-out one. -/
theorem c7_timeout (rb : RegionBehavior) (url : Str) (b : MainBehavior)
    (state_name : Str) (rest : List (Str × Str))
    (h1 : rb.navFails = false) (h2 : rb.waitSucceeds = false)
    (h3 : b.regionBeh url = rb) (h4 : b.saveFails state_name = false) :
    scraping.scrape_state rb url = ([Effect.nav url], Except.ok []) ∧
    scraping.processRegions b ((state_name, url) :: rest) =
      (Effect.nav url ::
        Effect.save (scraping.save_state_data state_name []).1
          (scraping.save_state_data state_name []).2 ::
        (scraping.processRegions b rest).1,
        (scraping.processRegions b rest).2) := by
  have hs : scraping.scrape_state rb url = ([Effect.nav url], Except.ok []) := by
    simp [scraping.scrape_state, h1, h2]
  refine ⟨hs, ?_⟩
  simp only [scraping.processRegions, h3, hs, h4]
  simp

/-- The region behaviour of the C7 witness: navigation succeeds, wait
times out. -/
def c7Rb : RegionBehavior := ⟨false, false, [], none⟩

/-- The run behaviour of the C7 witness. -/
def c7Mb : MainBehavior := ⟨[], fun _ => c7Rb, fun _ => false⟩

/-- Witness for C7 at a concrete timed-out region. -/
theorem c7_timeout_witness :
    (c7Rb.navFails = false ∧ c7Rb.waitSucceeds = false ∧
      c7Mb.regionBeh [] = c7Rb ∧ c7Mb.saveFails "Ohio".data = false) ∧
    (scraping.scrape_state c7Rb [] = ([Effect.nav []], Except.ok []) ∧
      scraping.processRegions c7Mb [("Ohio".data, [])] =
        (Effect.nav [] ::
          Effect.save (scraping.save_state_data "Ohio".data []).1
            (scraping.save_state_data "Ohio".data []).2 ::
          (scraping.processRegions c7Mb []).1,
          (scraping.processRegions c7Mb []).2)) :=
  ⟨⟨rfl, rfl, rfl, rfl⟩, c7_timeout c7Rb [] c7Mb "Ohio".data [] rfl rfl rfl rfl⟩

/- ### Claim C8 -/

/-- A qualifying index-page anchor for the C8 counterexample run. -/
def c8Anchor : Anchor :=
  ⟨some "https://www.uschamber.com/co/chambers/texas".data, "Texas".data⟩

/-- The C8 counterexample run: one region whose page loads fine, but whose
file write raises. -/
def c8Mb : MainBehavior :=
  ⟨[c8Anchor], fun _ => ⟨false, true, [], none⟩, fun _ => true⟩

/-- Claim C8 counterexample: when persistence raises, `main` has no
try/finally around the loop, so the run aborts with `driver.quit` never
invoked. -/
theorem c8_counterexample :
    hasQuit (scraping.main c8Mb).1 = false ∧ (scraping.main c8Mb).2 = false :=
  ⟨rfl, rfl⟩

theorem hasQuit_concat_quit (l : List Effect) :
    hasQuit (l ++ [Effect.quit]) = true := by
  induction l with
  | nil => rfl
  | cons e t ih => cases e <;> simp [hasQuit, ih]

/-- Claim C8 (amended): `driver.quit` is invoked on the early-exit path
(no regions discovered) and on the path where every region's extraction
and persistence complete without an uncaught exception; on paths where
`driver.get` or the file write raises, the session is not released. -/
theorem c8_quit_on_normal_exit (b : MainBehavior)
    (h : (scraping.main b).2 = true) :
    hasQuit (scraping.main b).1 = true := by
  unfold scraping.main at h ⊢
  by_cases he : (scraping.get_state_links b.anchors).isEmpty = true
  · simp only [he, if_true]
    rfl
  · simp only [he, if_false, Bool.false_eq_true] at h ⊢
    rw [h]
    simp [hasQuit, hasQuit_concat_quit]

/-- The C8 witness run: no anchors, so `main` exits early, releasing the
session. -/
def c8EmptyMb : MainBehavior := ⟨[], fun _ => ⟨false, false, [], none⟩, fun _ => false⟩

/-- Witness for the amended C8 on the early-exit path. -/
theorem c8_quit_witness :
    (scraping.main c8EmptyMb).2 = true ∧ hasQuit (scraping.main c8EmptyMb).1 = true :=
  ⟨rfl, c8_quit_on_normal_exit c8EmptyMb rfl⟩

/- ### Claim C10 -/

theorem findWebsite_http {as : List Anchor} {w : Str}
    (h : scraping.findWebsite as = some w) :
    "http".data.isPrefixOf w = true := by
  induction as with
  | nil => exact absurd h (by simp [scraping.findWebsite])
  | cons a rest ih =>
    cases ha : a.href with
    | none =>
      simp only [scraping.findWebsite, ha] at h
      exact ih h
    | some hr =>
      simp only [scraping.findWebsite, ha] at h
      by_cases hg : scraping.goodHref hr = true
      · rw [if_pos hg] at h
        cases h
        have h1 := (Bool.and_eq_true _ _).mp hg
        exact ((Bool.and_eq_true _ _).mp h1.1).2
      · rw [if_neg hg] at h
        exact ih h

/-- Claim C10: every element of the sequence returned by `scrape_state`,
on every return path (navigation failure, timeout, complete or partial
enumeration), is a `Listing` — a record carrying exactly the fields
`name`, `address`, `website`, with `name` and `address` strings by
construction — whose `website` is either null or a string starting with
"http". -/
theorem c10_listing_invariant (b : RegionBehavior) (url : Str)
    (L : List Listing) (l : Listing)
    (hL : (scraping.scrape_state b url).2 = Except.ok L) (hl : l ∈ L) :
    l.website.all (fun w => "http".data.isPrefixOf w) = true := by
  unfold scraping.scrape_state at hL
  by_cases hn : b.navFails = true
  · simp [hn] at hL
  · simp only [hn, Bool.false_eq_true, if_false] at hL
    by_cases hw : b.waitSucceeds = true
    · simp only [hw, if_true] at hL
      have hL2 := Except.ok.inj hL
      rw [← hL2] at hl
      rcases List.mem_map.mp hl with ⟨c, _, hc⟩
      rw [← hc]
      cases hca : c.anchors with
      | none => simp [scraping.extract_listing, hca, Option.all]
      | some as =>
        have hweb : (scraping.extract_listing c).website = scraping.findWebsite as := by
          simp [scraping.extract_listing, hca]
        rw [hweb]
        cases hfw : scraping.findWebsite as with
        | none => rfl
        | some w =>
          simp only [Option.all]
          exact findWebsite_http hfw
    · simp only [hw, Bool.false_eq_true, if_false] at hL
      have hL2 := Except.ok.inj hL
      rw [← hL2] at hl
      exact absurd hl (List.not_mem_nil l)

/-- The region behaviour of the C10 witness: one fully populated
container. -/
def c10Beh : RegionBehavior :=
  ⟨false, true, [⟨some "X".data, some "Y".data, some [⟨some "http://x".data, []⟩]⟩], none⟩

/-- The listing extracted from `c10Beh`. -/
def c10Listing : Listing := ⟨"X".data, "Y".data, some "http://x".data⟩

/-- Witness for C10 at a concrete scrape. -/
theorem c10_listing_invariant_witness :
    ((scraping.scrape_state c10Beh []).2 = Except.ok [c10Listing] ∧
      c10Listing ∈ [c10Listing]) ∧
    c10Listing.website.all (fun w => "http".data.isPrefixOf w) = true :=
  ⟨⟨rfl, by decide⟩,
    c10_listing_invariant c10Beh [] [c10Listing] c10Listing rfl (by decide)⟩
